import Mathlib

/-!
Verification of the tetrs multiplayer Tetris server core.

This file is a shallow embedding, in Lean 4, of the server-side Tetris engine
of the repository: the pure board/piece functions of `TetrisCoreService`
(src/src/app.module.ts), the seeded 7-bag generator and the per-player game
state machine of `GameService` (src/src/services/game.service.ts).

Modelling conventions:
* JavaScript arrays of numbers become `List Nat`; piece coordinates are `Int`
  (positions may be negative in the spawn zone).
* JavaScript numbers are IEEE-754 doubles.  In `createSeededRandom` the
  product `state * 1103515245` exceeds 2^53, so the multiplication and the
  subsequent addition each round to 53 significant bits before `ToInt32`
  truncates.  All intermediate values are integers, so this rounding is the
  exact integer function `fl53` below; no real-number arithmetic is needed.
  The quotient `state / 0x7fffffff` and the product with `(i + 1)` stay far
  enough from integer boundaries that `Math.floor` of the double computation
  agrees with exact integer floor division (checked at every boundary
  `k * 0x7fffffff / (i + 1)`), so the Fisher-Yates index is embedded as
  exact `Nat` division.
* Out-of-range `List.set` is a no-op.  Every write performed by the embedded
  code on the claims' domains is in range, so this agrees with the source.
* Redis reads/writes, pub/sub, logging and timers are effects on a store;
  for the one claim about them (`getPlayerGameState`) the store is made
  explicit and the mutually recursive calls are indexed by fuel.
-/

/-- The seven tetromino types `'I' | 'O' | 'T' | 'S' | 'Z' | 'J' | 'L'`
(src/common/interfaces/shared.interface). -/
inductive TetrominoType where
  | I | O | T | S | Z | J | L
deriving DecidableEq, Repr

/-- The `Position` interface: `{ x: number; y: number }`. -/
structure Position where
  x : Int
  y : Int
deriving DecidableEq, Repr

/-- The `Tetromino` / `TetrisBlock` interface: type, position, rotation and the
concrete shape matrix carried by the piece.  The presentation-only fields
`falling`, `lockDelay`, `dropTime` of the server `TetrisBlock` are copied
around unchanged by every operation and are not relevant to any claim, so
they are omitted. -/
structure Tetromino where
  type : TetrominoType
  position : Position
  rotation : Nat
  shape : List (List Nat)
deriving DecidableEq, Repr

/-- A board is a row-major grid, row 0 at the top (`number[][]`). -/
abbrev Board := List (List Nat)

/-- The constant `BOARD_WIDTH` (src/common/constants/tetrominos, value fixed by the spec
and by the literals in game.service.ts). -/
def BOARD_WIDTH : Nat := 10

/-- The constant `BOARD_HEIGHT`. -/
def BOARD_HEIGHT : Nat := 20

/-- Modelled from the spec: `TETROMINO_SHAPES` lives in
src/common/constants/tetrominos.ts which is not under src/; the spec (§4.1)
fixes it as the standard SRS shape set, one matrix per rotation 0..3.
The I piece uses the 4x4 matrices (the rotation-0 row appears literally as
the fallback shape in game.service.ts `getRotatedPieceShape`), the O piece a
2x2 block, the others 3x3 matrices. -/
def TETROMINO_SHAPES : TetrominoType → List (List (List Nat))
  | .I => [[[0,0,0,0],[1,1,1,1],[0,0,0,0],[0,0,0,0]],
           [[0,0,1,0],[0,0,1,0],[0,0,1,0],[0,0,1,0]],
           [[0,0,0,0],[0,0,0,0],[1,1,1,1],[0,0,0,0]],
           [[0,1,0,0],[0,1,0,0],[0,1,0,0],[0,1,0,0]]]
  | .O => [[[1,1],[1,1]], [[1,1],[1,1]], [[1,1],[1,1]], [[1,1],[1,1]]]
  | .T => [[[0,1,0],[1,1,1],[0,0,0]],
           [[0,1,0],[0,1,1],[0,1,0]],
           [[0,0,0],[1,1,1],[0,1,0]],
           [[0,1,0],[1,1,0],[0,1,0]]]
  | .S => [[[0,1,1],[1,1,0],[0,0,0]],
           [[0,1,0],[0,1,1],[0,0,1]],
           [[0,0,0],[0,1,1],[1,1,0]],
           [[1,0,0],[1,1,0],[0,1,0]]]
  | .Z => [[[1,1,0],[0,1,1],[0,0,0]],
           [[0,0,1],[0,1,1],[0,1,0]],
           [[0,0,0],[1,1,0],[0,1,1]],
           [[0,1,0],[1,1,0],[1,0,0]]]
  | .J => [[[1,0,0],[1,1,1],[0,0,0]],
           [[0,1,1],[0,1,0],[0,1,0]],
           [[0,0,0],[1,1,1],[0,0,1]],
           [[0,1,0],[0,1,0],[1,1,0]]]
  | .L => [[[0,0,1],[1,1,1],[0,0,0]],
           [[0,1,0],[0,1,0],[0,1,1]],
           [[0,0,0],[1,1,1],[1,0,0]],
           [[1,1,0],[0,1,0],[0,1,0]]]

/-- Modelled from the spec: `TETROMINO_SPAWN_POSITIONS` is also in the
missing constants file; the spec (§4.1) says every piece spawns near the
top-center, `x=3, y=0` for most, adjusted per type (the O piece, being 2
wide, is centered at `x=4`). -/
def TETROMINO_SPAWN_POSITIONS : TetrominoType → Position
  | .O => ⟨4, 0⟩
  | _ => ⟨3, 0⟩

namespace TetrisCoreService

/-- Embeds `createTetromino(type)` (app.module.ts:921-929). -/
def createTetromino (type : TetrominoType) : Tetromino :=
  let spawnPos := TETROMINO_SPAWN_POSITIONS type
  { type := type
    position := ⟨spawnPos.x, spawnPos.y⟩
    rotation := 0
    shape := (TETROMINO_SHAPES type).getD 0 [] }

/-- Read a board cell; `0` for cells outside the stored rows, matching the
JavaScript `undefined` being falsy in the validity test. -/
def cellAt (board : Board) (y x : Int) : Nat :=
  if 0 ≤ y ∧ 0 ≤ x then (board.getD y.toNat []).getD x.toNat 0 else 0

/-- The body of `isValidPosition`, parameterized by the final shape origin
`(newX, newY)`: every filled shape cell must map inside the side and bottom
walls and onto an empty board cell (cells above the top, `boardY < 0`, are
allowed).  (app.module.ts:992-1020). -/
def validAt (shape : List (List Nat)) (board : Board) (newX newY : Int) : Bool :=
  shape.enum.all fun (y, row) =>
    row.enum.all fun (x, cell) =>
      if cell ≠ 0 then
        let boardX := newX + x
        let boardY := newY + y
        ¬(boardX < 0 ∨ boardX ≥ (BOARD_WIDTH : Int) ∨ boardY ≥ (BOARD_HEIGHT : Int) ∨
          (boardY ≥ 0 ∧ cellAt board boardY boardX ≠ 0))
      else true

/-- Embeds `isValidPosition(tetromino, board, offsetX = 0, offsetY = 0)`
(app.module.ts:992-1020). -/
def isValidPosition (t : Tetromino) (board : Board) (offsetX offsetY : Int) : Bool :=
  validAt t.shape board (t.position.x + offsetX) (t.position.y + offsetY)

/-- Write one board cell.  `List.set` out of range is a no-op; the JavaScript
assignment would instead grow the row, but every call site guards `boardY >= 0`
and is validated to be in range on the claims' domains. -/
def setCell (board : Board) (y x : Nat) (v : Nat) : Board :=
  board.set y ((board.getD y []).set x v)

/-- Embeds `placeTetromino(tetromino, board)`: stamp every filled shape cell with
`1`; cells with `boardY < 0` are discarded (app.module.ts:1022-1039). -/
def placeTetromino (t : Tetromino) (board : Board) : Board :=
  t.shape.enum.foldl
    (fun b (yrow : Nat × List Nat) =>
      yrow.2.enum.foldl
        (fun b (xcell : Nat × Nat) =>
          if xcell.2 ≠ 0 then
            let boardX := t.position.x + xcell.1
            let boardY := t.position.y + yrow.1
            if 0 ≤ boardY ∧ 0 ≤ boardX then setCell b boardY.toNat boardX.toNat 1 else b
          else b)
        b)
    board

/-- Embeds `clearLines(board)`: drop every row with no empty cell, prepend empty
rows to restore the height, return the cleared count
(app.module.ts:1041-1054). -/
def clearLines (board : Board) : Board × Nat :=
  let newBoard := board.filter fun row => row.any fun cell => cell = 0
  (List.replicate (BOARD_HEIGHT - newBoard.length) (List.replicate BOARD_WIDTH 0) ++ newBoard,
   board.length - newBoard.length)

/-- Embeds `moveTetromino(tetromino, board, offsetX, offsetY)`
(app.module.ts:1056-1072). -/
def moveTetromino (t : Tetromino) (board : Board) (offsetX offsetY : Int) : Option Tetromino :=
  if isValidPosition t board offsetX offsetY then
    some { t with position := ⟨t.position.x + offsetX, t.position.y + offsetY⟩ }
  else
    none

/-- The drop loop shared by `dropTetromino` and `getGhostPiece`: starting
from the offset `d`, keep descending while the piece is still valid one row
lower.  The source `while` loop is embedded with explicit fuel; `dropFuel`
below always suffices for a piece whose shape has at least one filled
cell. -/
def dropLoop (t : Tetromino) (board : Board) : Nat → Nat → Nat
  | 0, d => d
  | fuel + 1, d => if isValidPosition t board 0 (d + 1) then dropLoop t board fuel (d + 1) else d

/-- Fuel bound for `dropLoop`: a filled cell of the shape reaches the bottom
wall after at most `|y| + BOARD_HEIGHT + shape height` rows. -/
def dropFuel (t : Tetromino) : Nat :=
  t.position.y.natAbs + t.shape.length + BOARD_HEIGHT + 2

/-- Total descent of the piece from its current position. -/
def dropDist (t : Tetromino) (board : Board) : Nat :=
  dropLoop t board (dropFuel t) 0

/-- Embeds `dropTetromino(tetromino, board)` (app.module.ts:1074-1086). -/
def dropTetromino (t : Tetromino) (board : Board) : Tetromino :=
  { t with position := ⟨t.position.x, t.position.y + dropDist t board⟩ }

/-- Embeds `getGhostPiece(tetromino, board)`: same descent loop as `dropTetromino`,
the result keeps everything but the `y` coordinate
(app.module.ts:1125-1145). -/
def getGhostPiece (t : Tetromino) (board : Board) : Tetromino :=
  { t with position := ⟨t.position.x, t.position.y + dropDist t board⟩ }

/-- Embeds `hardDrop(currentPiece, board)` returns the dropped piece and the
distance traveled (app.module.ts:1191-1199). -/
def hardDrop (t : Tetromino) (board : Board) : Tetromino × Int :=
  let droppedPiece := dropTetromino t board
  (droppedPiece, droppedPiece.position.y - t.position.y)

/-- Embeds `calculateScore(linesCleared, level)` of the core service used by the
game pipeline: `[0,100,300,500,800][linesCleared] * (level + 1)`
(app.module.ts:1089-1095). -/
def calculateScore (linesCleared level : Nat) : Nat :=
  let lineScores := [0, 100, 300, 500, 800]
  let baseScore := lineScores.getD linesCleared 0
  baseScore * (level + 1)

/-- Embeds `calculateLevel(lines)` of the core service: `Math.floor(lines / 10)`
(app.module.ts:1104-1106; the same formula appears in the standalone
TetrisLogicService copy, src/unnamed/part_007:249-251). -/
def calculateLevel (lines : Nat) : Nat :=
  lines / 10

/-- The seven types enumerated by `isGameOver` (app.module.ts:1111). -/
def tetrominoTypes : List TetrominoType := [.I, .O, .T, .S, .Z, .J, .L]

/-- Embeds `isGameOver(board)` of the core service: game over iff no piece type can
be spawn-placed (app.module.ts:1109-1123).  This is the version the game
pipeline calls (through `isGameOverForServer` of the TetrisLogicService
subclass); the standalone copy in src/unnamed/part_007:253-255 that looks at
the top row only is dead code. -/
def isGameOver (board : Board) : Bool :=
  tetrominoTypes.all fun type => !(isValidPosition (createTetromino type) board 0 0)

/-- Embeds `clearLinesAndCalculateScore(board, level)` (app.module.ts:1180-1188). -/
def clearLinesAndCalculateScore (board : Board) (level : Nat) : Board × Nat × Nat :=
  let res := clearLines board
  (res.1, res.2, calculateScore res.2 level)

/-- Embeds `createEmptyBoard()` (app.module.ts:914-918). -/
def createEmptyBoard : Board :=
  List.replicate BOARD_HEIGHT (List.replicate BOARD_WIDTH 0)

end TetrisCoreService

/-- Number of binary digits of `n` (0 for 0), with explicit fuel so that it
reduces structurally; 64 bits cover every value the LCG produces. -/
def bitLenAux : Nat → Nat → Nat
  | 0, _ => 0
  | fuel + 1, n => if n = 0 then 0 else bitLenAux fuel (n / 2) + 1

/-- Bit length of a Nat below 2^64. -/
def bitLen (n : Nat) : Nat :=
  bitLenAux 64 n

/-- Round a nonnegative integer to 53 significant bits, ties to even: the
value of the IEEE-754 double nearest to `n`.  JavaScript number arithmetic
applies this after every operation; inside `createSeededRandom` every
intermediate value is an integer, so this function models the JavaScript
evaluation exactly. -/
def fl53 (n : Nat) : Nat :=
  if n < 2 ^ 53 then n
  else
    let k := bitLen n - 53
    let q := n / 2 ^ k
    let r := n % 2 ^ k
    if 2 ^ (k - 1) < r ∨ (r = 2 ^ (k - 1) ∧ q % 2 = 1) then (q + 1) * 2 ^ k else q * 2 ^ k

namespace GameService

/-- One step of `createSeededRandom(seed)` (game.service.ts:1139-1146):
`state = (state * 1103515245 + 12345) & 0x7fffffff`, evaluated in JavaScript
doubles (see `fl53`); `& 0x7fffffff` keeps the low 31 bits of the truncated
value, i.e. the value modulo 2^31. -/
def lcgNext (state : Nat) : Nat :=
  fl53 (fl53 (state * 1103515245) + 12345) % 2 ^ 31

/-- The value the LCG step yields, `state / 0x7fffffff`, multiplied by `n`
and floored: the Fisher-Yates index `Math.floor(seededRandom() * (i + 1))`
(game.service.ts:1126), as exact integer division (see the header note). -/
def bagIndexOf (state n : Nat) : Nat :=
  state * n / 0x7fffffff

/-- The JavaScript swap `[bag[i], bag[j]] = [bag[j], bag[i]]` for in-range
indices; out of range (never reached from `generateNewBagWithSeed`, whose
indices satisfy `j ≤ i + 1 ≤ 7` with `j = 7` impossible because the rounded
product of the first LCG step is even whenever it exceeds 2^53) it is a
no-op. -/
def swapIdx (l : List α) (i j : Nat) : List α :=
  match l.get? i, l.get? j with
  | some a, some b => (l.set i b).set j a
  | _, _ => l

/-- One iteration of the Fisher-Yates loop of `generateNewBagWithSeed` for
loop index `i`: advance the LCG, pick `j`, swap. -/
def shuffleStep (acc : Nat × List TetrominoType) (i : Nat) : Nat × List TetrominoType :=
  let state := lcgNext acc.1
  let j := bagIndexOf state (i + 1)
  (state, swapIdx acc.2 i j)

/-- Embeds `generateNewBagWithSeed(seed)` (game.service.ts:1118-1136): Fisher-Yates
shuffle of `['I','O','T','S','Z','J','L']` driven by `createSeededRandom(seed)`,
loop index descending from 6 to 1. -/
def generateNewBagWithSeed (seed : Nat) : List TetrominoType :=
  (([6, 5, 4, 3, 2, 1] : List Nat).foldl shuffleStep
    (seed, [.I, .O, .T, .S, .Z, .J, .L])).2

end GameService

/-- The per-player server game state (game.service.ts:20-46).  String ids,
timestamps and the `paused`/`isGameStarted`/`nextPieces` mirrors are not
touched by any claim and are omitted.  `nextPiece` is declared non-null in
TypeScript but `handleGameOver` assigns `null` to it, so it is an `Option`
here. -/
structure PlayerGameState where
  gameStarted : Bool
  score : Nat
  level : Nat
  linesCleared : Nat
  currentPiece : Option Tetromino
  nextPiece : Option TetrominoType
  heldPiece : Option TetrominoType
  canHold : Bool
  ghostPiece : Option Tetromino
  board : Board
  gameOver : Bool
  tetrominoBag : List TetrominoType
  bagIndex : Nat
  bagNumber : Nat
  gameSeed : Nat
deriving DecidableEq, Repr

namespace GameService

/-- Embeds `createTetrisBlock(type)` of the TetrisLogicService subclass the game
service uses (src/unnamed/part_007:409-417): `createTetromino` plus the
presentation fields omitted here. -/
def createTetrisBlock (type : TetrominoType) : Tetromino :=
  TetrisCoreService.createTetromino type

/-- Embeds `getNextPiece(playerState)` (game.service.ts:1068-1104): if the bag is
exhausted, increment the bag number, regenerate from
`gameSeed + bagNumber`, reset the index; then return the piece at the
current index and advance the index. -/
def getNextPiece (st : PlayerGameState) : TetrominoType × PlayerGameState :=
  let st₁ :=
    if st.tetrominoBag.length ≤ st.bagIndex then
      let bagNumber := st.bagNumber + 1
      { st with tetrominoBag := generateNewBagWithSeed (st.gameSeed + bagNumber)
                bagIndex := 0
                bagNumber := bagNumber }
    else st
  (st₁.tetrominoBag.getD st₁.bagIndex .I, { st₁ with bagIndex := st₁.bagIndex + 1 })

/-- Embeds `createNewPiece(playerState)` (game.service.ts:1061-1065): draw a type
from the bag and materialize it at its spawn position. -/
def createNewPiece (st : PlayerGameState) : Tetromino × PlayerGameState :=
  let res := getNextPiece st
  (createTetrisBlock res.1, res.2)

/-- Embeds `calculateLevel(linesCleared)` — the *game service's own private* level
function (game.service.ts:1418-1420): `Math.floor(linesCleared / 10) + 1`.
This, not the core service's `calculateLevel`, is what the lock pipeline
calls. -/
def calculateLevel (linesCleared : Nat) : Nat :=
  linesCleared / 10 + 1

/-- The lock pipeline repeated verbatim at the three lock sites — `moveDown`
on collision (game.service.ts:709-787), `hardDrop` (835-900) and
`autoDropPiece` (986-1042): place the piece, clear lines, add score and
lines, draw the new current piece from the bag, draw the new next piece,
recompute the ghost, recompute the level, re-evaluate game over.  The
`handleGameOver` side effects (timer stop, Redis cleanup) do not change the
returned state. -/
def lockPipeline (st : PlayerGameState) (cur : Tetromino) : PlayerGameState :=
  let board₁ := TetrisCoreService.placeTetromino cur st.board
  let clearRes := TetrisCoreService.clearLines board₁
  let st₁ := { st with board := clearRes.1
                       linesCleared := st.linesCleared + clearRes.2
                       score := st.score + TetrisCoreService.calculateScore clearRes.2 st.level }
  let newCur := createNewPiece st₁
  let st₂ := newCur.2
  let nextRes := getNextPiece st₂
  let st₃ := nextRes.2
  { st₃ with currentPiece := some newCur.1
             nextPiece := some nextRes.1
             ghostPiece := some (TetrisCoreService.getGhostPiece newCur.1 st₃.board)
             level := calculateLevel st₃.linesCleared
             gameOver := TetrisCoreService.isGameOver st₃.board }

/-- The client action strings accepted by `handlePlayerInputServerOnly`. -/
inductive Action where
  | moveLeft | moveRight | moveDown | rotate | hardDrop | hold
deriving DecidableEq, Repr

/-- Spec-modelled SRS wall-kick data: `SRS_WALL_KICK_DATA` lives in the
missing constants file src/common/constants/tetrominos.ts; the spec (§4.1,
glossary) fixes it as the standard per-type SRS kick offset lists, indexed by
rotation transition; the O piece has an empty list so its rotation fails
whenever the naive rotation does not fit (app.module.ts:959-962). -/
def SRS_WALL_KICK_DATA : TetrominoType → List (List (Int × Int))
  | .O => []
  | .I => [[(-2,0),(1,0),(-2,-1),(1,2)], [(2,0),(-1,0),(2,1),(-1,-2)],
           [(-1,0),(2,0),(-1,2),(2,-1)], [(1,0),(-2,0),(1,-2),(-2,1)],
           [(2,0),(-1,0),(2,1),(-1,-2)], [(-2,0),(1,0),(-2,-1),(1,2)],
           [(1,0),(-2,0),(1,-2),(-2,1)], [(-1,0),(2,0),(-1,2),(2,-1)]]
  | _ => [[(-1,0),(-1,1),(0,-2),(-1,-2)], [(1,0),(1,-1),(0,2),(1,2)],
          [(1,0),(1,-1),(0,2),(1,2)], [(-1,0),(-1,1),(0,-2),(-1,-2)],
          [(1,0),(1,1),(0,-2),(1,-2)], [(-1,0),(-1,-1),(0,2),(-1,2)],
          [(-1,0),(-1,1),(0,-2),(-1,-2)], [(1,0),(1,-1),(0,2),(1,2)]]

/-- Embeds `rotateTetromino(tetromino)` (app.module.ts:936-943). -/
def rotateTetromino (t : Tetromino) : Tetromino :=
  let newRotation := (t.rotation + 1) % 4
  { t with rotation := newRotation
           shape := (TETROMINO_SHAPES t.type).getD newRotation [] }

/-- Embeds `rotateTetrominoWithWallKick(tetromino, board)` (app.module.ts:946-990):
try the naive rotation, then the SRS kick offsets for the transition. -/
def rotateTetrominoWithWallKick (t : Tetromino) (board : Board) : Option Tetromino :=
  let rotatedPiece := rotateTetromino t
  if TetrisCoreService.isValidPosition rotatedPiece board 0 0 then
    some rotatedPiece
  else
    let wallKickData := SRS_WALL_KICK_DATA t.type
    if wallKickData.length = 0 then
      none
    else
      let kickIndex := t.rotation * 2 + (if t.rotation < rotatedPiece.rotation then 0 else 1)
      if kickIndex < wallKickData.length then
        let kicks := wallKickData.getD kickIndex []
        (kicks.find? fun off =>
            TetrisCoreService.isValidPosition
              { rotatedPiece with
                position := ⟨rotatedPiece.position.x + off.1, rotatedPiece.position.y + off.2⟩ }
              board 0 0).map
          fun off =>
            { rotatedPiece with
              position := ⟨rotatedPiece.position.x + off.1, rotatedPiece.position.y + off.2⟩ }
      else
        none

/-- A moved or rotated piece together with the recomputed ghost
(`game.service.ts` updates `ghostPiece` after every successful move). -/
def withPiece (st : PlayerGameState) (p : Tetromino) : PlayerGameState :=
  { st with currentPiece := some p
            ghostPiece := some (TetrisCoreService.getGhostPiece p st.board) }

/-- Embeds `handlePlayerInputServerOnly(playerId, action)` (game.service.ts:592-954)
as a pure state transition.  `none` models the `return null` paths (game
over, unknown-action default, and the caught `TypeError` when `hold` reads
`.type` of a `null` current piece). -/
def handlePlayerInputServerOnly (st : PlayerGameState) (action : Action) :
    Option PlayerGameState :=
  if st.gameOver then none else
  match action with
  | .moveLeft =>
    some (match st.currentPiece with
      | none => st
      | some cur =>
        match TetrisCoreService.moveTetromino cur st.board (-1) 0 with
        | some movedPiece => withPiece st movedPiece
        | none => st)
  | .moveRight =>
    some (match st.currentPiece with
      | none => st
      | some cur =>
        match TetrisCoreService.moveTetromino cur st.board 1 0 with
        | some movedPiece => withPiece st movedPiece
        | none => st)
  | .moveDown =>
    some (match st.currentPiece with
      | none => st
      | some cur =>
        match TetrisCoreService.moveTetromino cur st.board 0 1 with
        | some movedPiece => withPiece st movedPiece
        | none => lockPipeline st cur)
  | .rotate =>
    some (match st.currentPiece with
      | none => st
      | some cur =>
        match rotateTetrominoWithWallKick cur st.board with
        | some rotatedPiece => withPiece st rotatedPiece
        | none => st)
  | .hardDrop =>
    some (match st.currentPiece with
      | none => st
      | some cur =>
        let dropRes := TetrisCoreService.hardDrop cur st.board
        let st₁ := { st with currentPiece := some dropRes.1
                             score := st.score + dropRes.2.toNat * 2 }
        lockPipeline st₁ dropRes.1)
  | .hold =>
    if st.canHold then
      match st.currentPiece with
      | none => none
      | some cur =>
        let temp := st.heldPiece
        let drawn : Tetromino × PlayerGameState :=
          match temp with
          | some held => (createTetrisBlock held, st)
          | none =>
            let res := getNextPiece st
            (createTetrisBlock res.1, res.2)
        some { drawn.2 with
               heldPiece := some cur.type
               currentPiece := some drawn.1
               ghostPiece := some (TetrisCoreService.getGhostPiece drawn.1 drawn.2.board)
               canHold := false }
    else some st

/-- Embeds `autoDropPiece(playerId)` (game.service.ts:957-1058): the gravity tick;
`none` models the `return null` paths (missing state, game over, no current
piece). -/
def autoDropPiece (st : PlayerGameState) : Option PlayerGameState :=
  if st.gameOver then none else
  match st.currentPiece with
  | none => none
  | some cur =>
    match TetrisCoreService.moveTetromino cur st.board 0 1 with
    | some movedPiece => some (withPiece st movedPiece)
    | none => some (lockPipeline st cur)

/-- The fresh state written by `initializePlayerGameState(playerId, roomId)`
(game.service.ts:229-278): the first bag is generated from `gameSeed`
itself, its first piece becomes `nextPiece` and `bagIndex` starts at 1. -/
def initPlayerGameState (gameSeed : Nat) : PlayerGameState :=
  let initialBag := generateNewBagWithSeed gameSeed
  { gameStarted := false
    score := 0
    level := 0
    linesCleared := 0
    currentPiece := none
    nextPiece := some (initialBag.getD 0 .I)
    heldPiece := none
    canHold := true
    ghostPiece := none
    board := TetrisCoreService.createEmptyBoard
    gameOver := false
    tetrominoBag := initialBag
    bagIndex := 1
    bagNumber := 1
    gameSeed := gameSeed }

/-- The fresh state written by `startPlayerGame(playerId, roomId)`
(game.service.ts:328-353): again the first bag comes from `gameSeed` itself;
its first piece is materialized as the current piece, the second becomes
`nextPiece`, and `bagIndex` starts at 2. -/
def startPlayerGameState (gameSeed : Nat) : PlayerGameState :=
  let initialBag := generateNewBagWithSeed gameSeed
  { gameStarted := true
    score := 0
    level := 1
    linesCleared := 0
    currentPiece := some (createTetrisBlock (initialBag.getD 0 .I))
    nextPiece := some (initialBag.getD 1 .I)
    heldPiece := none
    canHold := true
    ghostPiece := some (TetrisCoreService.getGhostPiece
      (createTetrisBlock (initialBag.getD 0 .I)) TetrisCoreService.createEmptyBoard)
    board := TetrisCoreService.createEmptyBoard
    gameOver := false
    tetrominoBag := initialBag
    bagIndex := 2
    bagNumber := 1
    gameSeed := gameSeed }

/-- Advance the player's draw sequence one piece (the state component of
`getNextPiece`). -/
def drawStep (st : PlayerGameState) : PlayerGameState :=
  (getNextPiece st).2

/-- The bag in use while the n-th group of seven pieces is consumed, for a
player whose state was created by `initializePlayerGameState(seed)`: the
`tetrominoBag` field after `7 * (n - 1)` draws. -/
def nthConsumedBag (seed n : Nat) : List TetrominoType :=
  (drawStep^[7 * (n - 1)] (initPlayerGameState seed)).tetrominoBag

end GameService

/-- A room record, reduced to the field `startPlayerGame` reads
(`roomSeed`, game.service.ts:1558-1591). -/
structure Room where
  roomSeed : Nat
deriving DecidableEq, Repr

/-- The state touched by `getPlayerGameState`/`startPlayerGame` for one
player: the Redis value under `player_game:{playerId}`, the in-process cache
entry for that player (`some` = present and within its 5-second TTL), and
the Redis room record with its seed already present. -/
structure GsStore where
  playerGame : Option PlayerGameState
  cache : Option PlayerGameState
  room : Option Room
deriving DecidableEq, Repr

namespace GameService

/-- The character code `playerId.charCodeAt(0)` used in the fallback seed of
`startPlayerGame`; kept abstract as a constant (the fallback is only reached
when the existing state is missing or has seed 0). -/
def pidCharCode : Nat := 112

mutual

/-- Embeds `getPlayerGameState(playerId)` (game.service.ts:421-506) with explicit
fuel: `none` means the computation did not finish within `fuel` nested
calls.  Cache hit returns the cached state; a stored state with
`gameStarted` and no `currentPiece` triggers `startPlayerGame` and then
re-reads and caches the stored value; any other stored state is cached and
returned unchanged.  (The inner `createTetrisBlock(nextPiece)` repair branch
at lines 461-488 is dead code: it sits under the same condition as the
restart branch.) -/
def getPlayerGameStateF : Nat → GsStore → Option (Option PlayerGameState × GsStore)
  | 0, _ => none
  | n + 1, store =>
    match store.cache with
    | some cached => some (some cached, store)
    | none =>
      match store.playerGame with
      | none => some (none, store)
      | some gameState =>
        if gameState.gameStarted = true ∧ gameState.currentPiece = none then
          match startPlayerGameF n store with
          | none => none
          | some store' =>
            match store'.playerGame with
            | some updated => some (some updated, { store' with cache := some updated })
            | none => some (none, store')
        else
          some (some gameState, { store with cache := some gameState })

/-- Embeds `startPlayerGame(playerId, roomId)` (game.service.ts:306-416) with
explicit fuel.  A missing room throws, which the surrounding `catch` logs,
leaving the store unchanged.  Otherwise the *first* thing the function does
is read the existing state through `getPlayerGameState` (line 318) — before
it writes anything — and only then builds and stores the fresh started
state. -/
def startPlayerGameF : Nat → GsStore → Option GsStore
  | 0, _ => none
  | n + 1, store =>
    match store.room with
    | none => some store
    | some room =>
      match getPlayerGameStateF n store with
      | none => none
      | some (existingState, store') =>
        let gameSeed :=
          match existingState with
          | some e => if e.gameSeed ≠ 0 then e.gameSeed else room.roomSeed + pidCharCode
          | none => room.roomSeed + pidCharCode
        some { store' with playerGame := some (startPlayerGameState gameSeed) }

end

end GameService

/-- A row is well-formed when it has the board width and only 0/1 cells
(spec §3.2). -/
def rowWF (r : List Nat) : Prop :=
  r.length = BOARD_WIDTH ∧ ∀ c ∈ r, c = 0 ∨ c = 1

/-- A board is well-formed when it is exactly 20 rows of well-formed rows. -/
def boardWF (b : Board) : Prop :=
  b.length = BOARD_HEIGHT ∧ ∀ r ∈ b, rowWF r

instance (r : List Nat) : Decidable (rowWF r) := by
  unfold rowWF; infer_instance

instance (b : Board) : Decidable (boardWF b) := by
  unfold boardWF; infer_instance

/-- A fully-filled row: no empty cell. -/
def isFullRow (r : List Nat) : Bool :=
  r.all fun c => c != 0

/-- A 20x10 board whose only filled cell is in the top row (top-left
corner): used to show the top-row heuristic does not decide `isGameOver`. -/
def topRowBoard : Board :=
  (1 :: List.replicate 9 0) :: List.replicate 19 (List.replicate 10 0)

/-- The I piece resting on the bottom row of an empty board: the state of
`startPlayerGame` with seed 12345 after eighteen gravity drops of the first
piece (bag 12345 is `[I,J,T,L,S,O,Z]`, so the current piece is the I and the
displayed next piece the J). -/
def restingIPiece : Tetromino :=
  { TetrisCoreService.createTetromino .I with position := ⟨3, 18⟩ }

/-- The full player state of that scenario: one `moveDown` from here is a
lock transition in a state that is not game over. -/
def lockState : PlayerGameState :=
  { gameStarted := true
    score := 0
    level := 1
    linesCleared := 0
    currentPiece := some restingIPiece
    nextPiece := some .J
    heldPiece := none
    canHold := true
    ghostPiece := some restingIPiece
    board := TetrisCoreService.createEmptyBoard
    gameOver := false
    tetrominoBag := [.I, .J, .T, .L, .S, .O, .Z]
    bagIndex := 2
    bagNumber := 1
    gameSeed := 12345 }

/-- The same scenario after an earlier hold: `canHold` is `false` and the J
was stored in the hold slot. -/
def heldLockState : PlayerGameState :=
  { lockState with canHold := false, heldPiece := some .J }

/-- A stored player state with `gameStarted = true` and no current piece:
the shape that triggers the restart branch of `getPlayerGameState`. -/
def restartTriggerState : PlayerGameState :=
  { gameStarted := true
    score := 40
    level := 1
    linesCleared := 0
    currentPiece := none
    nextPiece := some .J
    heldPiece := none
    canHold := true
    ghostPiece := none
    board := TetrisCoreService.createEmptyBoard
    gameOver := false
    tetrominoBag := [.I, .J, .T, .L, .S, .O, .Z]
    bagIndex := 2
    bagNumber := 1
    gameSeed := 12345 }

/-- The store for that player: the state above in Redis, a cold cache, and a
room whose seed is present. -/
def divergingStore : GsStore :=
  { playerGame := some restartTriggerState
    cache := none
    room := some ⟨555⟩ }

section Theorems

open TetrisCoreService GameService

/-- Moving the element at index `m` to the front while writing `x` in its
place is a permutation-preserving exchange. -/
theorem cons_set_perm : ∀ (l : List α) (m : Nat) (b x : α),
    l[m]? = some b → (b :: l.set m x).Perm (x :: l) := by
  intro l
  induction l with
  | nil => intro m b x h; simp at h
  | cons d t ih =>
    intro m b x h
    cases m with
    | zero =>
      simp only [List.getElem?_cons_zero, Option.some.injEq] at h
      subst h
      simpa using List.Perm.swap x d t
    | succ m =>
      simp only [List.getElem?_cons_succ] at h
      simp only [List.set_cons_succ]
      exact ((List.Perm.swap d b _).trans (((ih m b x h).cons d).trans (List.Perm.swap x d t)))

/-- Writing `b` at `i` and `a` at `j` permutes a list in which `a` sat at `i`
and `b` at `j`. -/
theorem set_set_perm : ∀ (l : List α) (i j : Nat) (a b : α),
    l[i]? = some a → l[j]? = some b → ((l.set i b).set j a).Perm l := by
  intro l
  induction l with
  | nil => intro i j a b h _; simp at h
  | cons c t ih =>
    intro i j a b ha hb
    cases i with
    | zero =>
      simp only [List.getElem?_cons_zero, Option.some.injEq] at ha
      subst ha
      cases j with
      | zero =>
        simp only [List.getElem?_cons_zero, Option.some.injEq] at hb
        subst hb
        simp
      | succ j =>
        simp only [List.getElem?_cons_succ] at hb
        simpa using cons_set_perm t j b c hb
    | succ i =>
      simp only [List.getElem?_cons_succ] at ha
      cases j with
      | zero =>
        simp only [List.getElem?_cons_zero, Option.some.injEq] at hb
        subst hb
        simpa using cons_set_perm t i a c ha
      | succ j =>
        simp only [List.getElem?_cons_succ] at hb
        simpa using (ih i j a b ha hb).cons c

/-- The JavaScript-style swap preserves the multiset of elements. -/
theorem swapIdx_perm (l : List α) (i j : Nat) : (GameService.swapIdx l i j).Perm l := by
  unfold GameService.swapIdx
  cases hi : l.get? i with
  | none => exact List.Perm.refl l
  | some a =>
    cases hj : l.get? j with
    | none => exact List.Perm.refl l
    | some b =>
      exact set_set_perm l i j a b (by simpa [List.get?_eq_getElem?] using hi)
        (by simpa [List.get?_eq_getElem?] using hj)

set_option maxRecDepth 4000 in
/-- Every prefix of the Fisher-Yates loop keeps the bag a permutation of its
start value. -/
theorem shuffle_foldl_perm :
    ∀ (idxs : List Nat) (acc : Nat × List TetrominoType),
      ((idxs.foldl GameService.shuffleStep acc).2).Perm acc.2 := by
  intro idxs
  induction idxs with
  | nil => intro acc; exact List.Perm.refl _
  | cons i idxs ih =>
    intro acc
    have hstep : (GameService.shuffleStep acc i).2.Perm acc.2 := by
      show (GameService.swapIdx acc.2 i
        (GameService.bagIndexOf (GameService.lcgNext acc.1) (i + 1))).Perm acc.2
      exact swapIdx_perm acc.2 i _
    rw [List.foldl_cons]
    exact (ih (GameService.shuffleStep acc i)).trans hstep

/-- C7: for every seed, the seeded bag generator returns a permutation of
`{I,O,T,S,Z,J,L}`, and two separate invocations with the same seed return
the identical bag — it is a deterministic function of the seed alone, driven
by the LCG `state = (state * 1103515245 + 12345) & 0x7FFFFFFF` embedded in
`GameService.lcgNext`. -/
theorem generateNewBagWithSeed_perm_deterministic (s₁ s₂ : Nat) (h : s₁ = s₂) :
    (GameService.generateNewBagWithSeed s₁).Perm [.I, .O, .T, .S, .Z, .J, .L] ∧
    GameService.generateNewBagWithSeed s₁ = GameService.generateNewBagWithSeed s₂ := by
  subst h
  constructor
  · show (([6, 5, 4, 3, 2, 1] : List Nat).foldl GameService.shuffleStep
      (s₁, [.I, .O, .T, .S, .Z, .J, .L])).2.Perm [.I, .O, .T, .S, .Z, .J, .L]
    exact shuffle_foldl_perm _ _
  · rfl

/-- Witness for C7 at seed 12345. -/
theorem generateNewBagWithSeed_perm_deterministic_witness :
    (GameService.generateNewBagWithSeed 12345).Perm [.I, .O, .T, .S, .Z, .J, .L] ∧
    GameService.generateNewBagWithSeed 12345 = GameService.generateNewBagWithSeed 12345 :=
  generateNewBagWithSeed_perm_deterministic 12345 12345 rfl

/-- C1: for `linesCleared` in 0..4 and any level, the line-clear score
function used by the game pipeline returns
`[0,100,300,500,800][linesCleared]` times `level + 1`. -/
theorem calculateScore_formula (linesCleared level : Nat) (h : linesCleared ≤ 4) :
    TetrisCoreService.calculateScore linesCleared level =
      (match linesCleared with
        | 0 => 0 | 1 => 100 | 2 => 300 | 3 => 500 | _ => 800) * (level + 1) := by
  interval_cases linesCleared <;> rfl

/-- Witness for C1: a Tetris at level 7 scores 800 * 8. -/
theorem calculateScore_formula_witness :
    TetrisCoreService.calculateScore 4 7 = 800 * (7 + 1) :=
  calculateScore_formula 4 7 (by decide)

/-- C3: `isGameOver(b)` holds exactly when every one of the seven piece
types, created at its standard spawn position, fails the validity check
against `b`; and a filled cell in the top row alone does not decide the
result — `topRowBoard` has its top-left cell filled yet is not game over. -/
theorem isGameOver_spawn_characterization :
    (∀ b : Board, TetrisCoreService.isGameOver b = true ↔
        ∀ t : TetrominoType,
          TetrisCoreService.isValidPosition (TetrisCoreService.createTetromino t) b 0 0 = false) ∧
    (topRowBoard.getD 0 []).getD 0 0 = 1 ∧
    TetrisCoreService.isGameOver topRowBoard = false := by
  refine ⟨?_, by decide, by decide⟩
  intro b
  rw [TetrisCoreService.isGameOver, List.all_eq_true]
  constructor
  · intro h t
    have ht := h t (by cases t <;> simp [TetrisCoreService.tetrominoTypes])
    simpa using ht
  · intro h t _
    simpa using h t

/-- A property preserved by each step of a fold is preserved by the fold. -/
theorem foldl_preserve {β α : Type _} {P : β → Prop} {f : β → α → β}
    (hf : ∀ b a, P b → P (f b a)) : ∀ (l : List α) (b : β), P b → P (l.foldl f b) := by
  intro l
  induction l with
  | nil => intro b hb; exact hb
  | cons a l ih => intro b hb; exact ih _ (hf _ _ hb)

/-- Writing a 1 into a cell keeps the board well-formed. -/
theorem setCell_wf (b : Board) (y x : Nat) (h : boardWF b) :
    boardWF (TetrisCoreService.setCell b y x 1) := by
  by_cases hy : b.length ≤ y
  · rwa [TetrisCoreService.setCell, List.set_eq_of_length_le hy]
  · push_neg at hy
    constructor
    · rw [TetrisCoreService.setCell, List.length_set]
      exact h.1
    · intro r hr
      rcases List.mem_or_eq_of_mem_set hr with hmem | heq
      · exact h.2 r hmem
      · subst heq
        have hbase : b.getD y [] ∈ b := by
          rw [List.getD_eq_getElem b [] hy]
          exact List.getElem_mem hy
        have hwf := h.2 _ hbase
        constructor
        · rw [List.length_set]
          exact hwf.1
        · intro c hc
          rcases List.mem_or_eq_of_mem_set hc with hc' | rfl
          · exact hwf.2 c hc'
          · right; rfl

/-- Placing a piece keeps the board well-formed. -/
theorem placeTetromino_wf (t : Tetromino) (b : Board) (h : boardWF b) :
    boardWF (TetrisCoreService.placeTetromino t b) := by
  unfold TetrisCoreService.placeTetromino
  refine foldl_preserve ?_ _ _ h
  intro bb yrow hbb
  refine foldl_preserve ?_ _ _ hbb
  intro bb' xcell hbb'
  dsimp only
  split
  · split
    · exact setCell_wf _ _ _ hbb'
    · exact hbb'
  · exact hbb'

/-- A filter and its negation split the length of a list. -/
theorem length_filter_split (l : List α) (p : α → Bool) :
    (l.filter p).length + (l.filter fun a => !(p a)).length = l.length := by
  induction l with
  | nil => rfl
  | cons a l ih =>
    by_cases h : p a = true <;> simp [List.filter_cons, h] <;> omega

/-- A row is fully filled exactly when it has no empty cell. -/
theorem isFullRow_eq_not_any (r : List Nat) :
    isFullRow r = !(r.any fun c => decide (c = 0)) := by
  induction r with
  | nil => rfl
  | cons c r ih =>
    simp only [isFullRow, List.all_cons, List.any_cons, Bool.not_or]
    rw [show (r.all fun c => c != 0) = isFullRow r from rfl, ih]
    cases Nat.decEq c 0 <;> simp [bne, *]

/-- C8: for every well-formed 20x10 board `b` with 0/1 cells and every piece
`p` valid on `b`, the board `clearLines(place(p, b))` is still exactly 20
rows of 10 cells in {0,1}, the reported `linesCleared` is the number of
fully-filled rows of the placed board that were removed, and no fully-filled
row remains. -/
theorem clearLines_place_invariants (b : Board) (p : Tetromino)
    (hb : boardWF b) (hv : TetrisCoreService.isValidPosition p b 0 0 = true) :
    boardWF (TetrisCoreService.clearLines (TetrisCoreService.placeTetromino p b)).1 ∧
    (TetrisCoreService.clearLines (TetrisCoreService.placeTetromino p b)).2 =
      ((TetrisCoreService.placeTetromino p b).filter isFullRow).length ∧
    ∀ r ∈ (TetrisCoreService.clearLines (TetrisCoreService.placeTetromino p b)).1,
      isFullRow r = false := by
  have hp : boardWF (TetrisCoreService.placeTetromino p b) := placeTetromino_wf p b hb
  set placed := TetrisCoreService.placeTetromino p b with hplaced
  have hsplit := length_filter_split placed fun row => row.any fun c => decide (c = 0)
  have hkle : (placed.filter fun row => row.any fun c => decide (c = 0)).length ≤ BOARD_HEIGHT :=
    hp.1 ▸ List.length_filter_le _ placed
  have hfull : (placed.filter fun row => !(row.any fun c => decide (c = 0))) =
      placed.filter isFullRow := by
    refine List.filter_congr ?_
    intro r _
    rw [isFullRow_eq_not_any]
  refine ⟨⟨?_, ?_⟩, ?_, ?_⟩
  · rw [TetrisCoreService.clearLines, List.length_append, List.length_replicate]
    omega
  · intro r hr
    rw [TetrisCoreService.clearLines] at hr
    rcases List.mem_append.1 hr with hrep | hmem
    · have := List.eq_of_mem_replicate hrep
      subst this
      constructor
      · exact List.length_replicate ..
      · intro c hc
        left
        exact List.eq_of_mem_replicate hc
    · exact hp.2 r (List.mem_filter.1 hmem).1
  · rw [TetrisCoreService.clearLines]
    rw [← hfull]
    omega
  · intro r hr
    rw [TetrisCoreService.clearLines] at hr
    rcases List.mem_append.1 hr with hrep | hmem
    · have := List.eq_of_mem_replicate hrep
      subst this
      decide
    · rw [isFullRow_eq_not_any, (List.mem_filter.1 hmem).2]
      rfl

/-- Witness for C8: the resting I piece placed on the empty board. -/
theorem clearLines_place_invariants_witness :
    boardWF (TetrisCoreService.clearLines
      (TetrisCoreService.placeTetromino restingIPiece TetrisCoreService.createEmptyBoard)).1 ∧
    (TetrisCoreService.clearLines
      (TetrisCoreService.placeTetromino restingIPiece TetrisCoreService.createEmptyBoard)).2 =
      ((TetrisCoreService.placeTetromino restingIPiece
          TetrisCoreService.createEmptyBoard).filter isFullRow).length ∧
    ∀ r ∈ (TetrisCoreService.clearLines
        (TetrisCoreService.placeTetromino restingIPiece TetrisCoreService.createEmptyBoard)).1,
      isFullRow r = false :=
  clearLines_place_invariants TetrisCoreService.createEmptyBoard restingIPiece
    (by decide) (by decide)

/-- Shifting a piece down by `d` and testing offset `k` is the same as
testing the original piece at offset `d + k`. -/
theorem isValidPosition_shift (t : Tetromino) (b : Board) (d k : Int) :
    TetrisCoreService.isValidPosition
      { t with position := ⟨t.position.x, t.position.y + d⟩ } b 0 k =
    TetrisCoreService.isValidPosition t b 0 (d + k) := by
  simp [TetrisCoreService.isValidPosition, Int.add_assoc]

/-- If the piece is invalid at the offset the fuel runs out at, the drop
loop stops at an offset whose successor is invalid. -/
theorem dropLoop_invalid (t : Tetromino) (b : Board) :
    ∀ (fuel d : Nat),
      TetrisCoreService.isValidPosition t b 0 ((d : Int) + fuel + 1) = false →
      TetrisCoreService.isValidPosition t b 0
        ((TetrisCoreService.dropLoop t b fuel d : Int) + 1) = false := by
  intro fuel
  induction fuel with
  | zero =>
    intro d hstop
    rw [TetrisCoreService.dropLoop]
    simpa using hstop
  | succ n ih =>
    intro d hstop
    rw [TetrisCoreService.dropLoop]
    by_cases h : TetrisCoreService.isValidPosition t b 0 ((d : Int) + 1) = true
    · rw [if_pos h]
      refine ih (d + 1) ?_
      have harith : ((d : Int) + 1) + n + 1 = (d : Int) + (n + 1) + 1 := by ring
      rw [Nat.cast_add, Nat.cast_one, harith]
      exact_mod_cast hstop
    · rw [if_neg h]
      simpa using Bool.eq_false_iff.2 h

/-- A piece with at least one filled shape cell is invalid at any offset
that puts its origin at or below the bottom wall. -/
theorem valid_false_at_big (t : Tetromino) (b : Board)
    (hcell : ∃ row ∈ t.shape, ∃ c ∈ row, c ≠ 0)
    (k : Int) (hk : (BOARD_HEIGHT : Int) ≤ t.position.y + k) :
    TetrisCoreService.isValidPosition t b 0 k = false := by
  obtain ⟨row, hrow, c, hc, hcne⟩ := hcell
  obtain ⟨sy, hsy, hrowy⟩ := List.getElem_of_mem hrow
  obtain ⟨sx, hsx, hcx⟩ := List.getElem_of_mem hc
  rw [Bool.eq_false_iff]
  intro hall
  rw [TetrisCoreService.isValidPosition, TetrisCoreService.validAt, List.all_eq_true] at hall
  have hsy' : sy < t.shape.enum.length := by simpa using hsy
  have hmemy : (sy, row) ∈ t.shape.enum := by
    have h1 : t.shape.enum[sy] = (sy, row) := by
      rw [List.getElem_enum, hrowy]
    rw [← h1]
    exact List.getElem_mem hsy'
  have hrowall := hall _ hmemy
  rw [List.all_eq_true] at hrowall
  have hsx' : sx < row.enum.length := by simpa using hsx
  have hmemx : (sx, c) ∈ row.enum := by
    have h1 : row.enum[sx] = (sx, c) := by
      rw [List.getElem_enum, hcx]
    rw [← h1]
    exact List.getElem_mem hsx'
  have hbody := hrowall _ hmemx
  dsimp only at hbody
  rw [if_pos hcne] at hbody
  have hprop := of_decide_eq_true hbody
  apply hprop
  right; right; left
  have hsy0 : (0 : Int) ≤ (sy : Int) := Int.natCast_nonneg sy
  omega

/-- The offset one past the computed drop distance is invalid: the drop
loop always stops because the condition fails, never because the fuel runs
out. -/
theorem dropDist_stop (t : Tetromino) (b : Board)
    (hcell : ∃ row ∈ t.shape, ∃ c ∈ row, c ≠ 0) :
    TetrisCoreService.isValidPosition t b 0
      ((TetrisCoreService.dropDist t b : Int) + 1) = false := by
  rw [TetrisCoreService.dropDist]
  refine dropLoop_invalid t b (TetrisCoreService.dropFuel t) 0 ?_
  refine valid_false_at_big t b hcell _ ?_
  rw [TetrisCoreService.dropFuel]
  rw [BOARD_HEIGHT]
  omega

/-- A piece that cannot descend is its own ghost. -/
theorem ghost_self_of_dropDist_zero (g : Tetromino) (b : Board)
    (hg : TetrisCoreService.dropDist g b = 0) :
    TetrisCoreService.getGhostPiece g b = g := by
  cases g with
  | mk ty pos rot sh =>
    cases pos with
    | mk px py => simp [TetrisCoreService.getGhostPiece, hg]

/-- C9: the ghost computation is idempotent — recomputing the ghost of the
ghost piece leaves it unchanged (`ghost(ghost(p, b), b) = ghost(p, b)`), for
every board and every piece valid on it whose shape has a filled cell (as
all real pieces do). -/
theorem getGhostPiece_idempotent (t : Tetromino) (b : Board)
    (hv : TetrisCoreService.isValidPosition t b 0 0 = true)
    (hcell : ∃ row ∈ t.shape, ∃ c ∈ row, c ≠ 0) :
    TetrisCoreService.getGhostPiece (TetrisCoreService.getGhostPiece t b) b =
      TetrisCoreService.getGhostPiece t b := by
  have hstop := dropDist_stop t b hcell
  have hcond : TetrisCoreService.isValidPosition (TetrisCoreService.getGhostPiece t b) b 0
      (((0 : Nat) : Int) + 1) = false := by
    rw [show TetrisCoreService.getGhostPiece t b =
        { t with position := ⟨t.position.x,
            t.position.y + (TetrisCoreService.dropDist t b : Int)⟩ } from rfl]
    rw [show (((0 : Nat) : Int) + 1) = (1 : Int) by norm_num]
    rw [isValidPosition_shift t b (TetrisCoreService.dropDist t b) 1]
    exact hstop
  have h0 : TetrisCoreService.dropDist (TetrisCoreService.getGhostPiece t b) b = 0 := by
    rw [TetrisCoreService.dropDist]
    rw [show TetrisCoreService.dropFuel (TetrisCoreService.getGhostPiece t b) =
        ((TetrisCoreService.getGhostPiece t b).position.y.natAbs +
          (TetrisCoreService.getGhostPiece t b).shape.length + BOARD_HEIGHT + 1) + 1 from rfl]
    rw [TetrisCoreService.dropLoop]
    rw [if_neg ?_]
    rw [hcond]
    exact Bool.false_ne_true
  exact ghost_self_of_dropDist_zero _ _ h0

/-- Witness for C9: the freshly spawned T piece on the empty board. -/
theorem getGhostPiece_idempotent_witness :
    TetrisCoreService.getGhostPiece
      (TetrisCoreService.getGhostPiece (TetrisCoreService.createTetromino .T)
        TetrisCoreService.createEmptyBoard)
      TetrisCoreService.createEmptyBoard =
    TetrisCoreService.getGhostPiece (TetrisCoreService.createTetromino .T)
      TetrisCoreService.createEmptyBoard :=
  getGhostPiece_idempotent (TetrisCoreService.createTetromino .T)
    TetrisCoreService.createEmptyBoard (by decide) (by decide)

/-- Every generated bag has exactly seven pieces. -/
theorem generateNewBagWithSeed_length (seed : Nat) :
    (GameService.generateNewBagWithSeed seed).length = 7 := by
  have h := (shuffle_foldl_perm [6, 5, 4, 3, 2, 1]
    (seed, [.I, .O, .T, .S, .Z, .J, .L])).length_eq
  simpa using h

/-- A draw from a bag that is not exhausted only advances the index. -/
theorem drawStep_advance (st : PlayerGameState)
    (h : st.bagIndex < st.tetrominoBag.length) :
    GameService.drawStep st = { st with bagIndex := st.bagIndex + 1 } := by
  simp [GameService.drawStep, GameService.getNextPiece, Nat.not_le.mpr h]

/-- A draw from an exhausted bag regenerates it from
`gameSeed + (bagNumber + 1)` and leaves the index at 1. -/
theorem drawStep_regen (st : PlayerGameState)
    (h : st.tetrominoBag.length ≤ st.bagIndex) :
    GameService.drawStep st =
      { st with
          tetrominoBag := GameService.generateNewBagWithSeed (st.gameSeed + (st.bagNumber + 1))
          bagIndex := 1
          bagNumber := st.bagNumber + 1 } := by
  simp [GameService.drawStep, GameService.getNextPiece, h]

/-- Seven draws from a full bag at index 1 consume it and install the next
bag, seeded `gameSeed + (bagNumber + 1)`. -/
theorem drawStep_seven (st : PlayerGameState)
    (hlen : st.tetrominoBag.length = 7) (hidx : st.bagIndex = 1) :
    GameService.drawStep^[7] st =
      { st with
          tetrominoBag := GameService.generateNewBagWithSeed (st.gameSeed + (st.bagNumber + 1))
          bagIndex := 1
          bagNumber := st.bagNumber + 1 } := by
  have e1 : GameService.drawStep st = { st with bagIndex := 2 } := by
    rw [drawStep_advance st (by omega), hidx]
  have e2 : GameService.drawStep { st with bagIndex := 2 } = { st with bagIndex := 3 } := by
    rw [drawStep_advance _ (by simp [hlen])]
  have e3 : GameService.drawStep { st with bagIndex := 3 } = { st with bagIndex := 4 } := by
    rw [drawStep_advance _ (by simp [hlen])]
  have e4 : GameService.drawStep { st with bagIndex := 4 } = { st with bagIndex := 5 } := by
    rw [drawStep_advance _ (by simp [hlen])]
  have e5 : GameService.drawStep { st with bagIndex := 5 } = { st with bagIndex := 6 } := by
    rw [drawStep_advance _ (by simp [hlen])]
  have e6 : GameService.drawStep { st with bagIndex := 6 } = { st with bagIndex := 7 } := by
    rw [drawStep_advance _ (by simp [hlen])]
  have e7 : GameService.drawStep { st with bagIndex := 7 } =
      { st with
          tetrominoBag := GameService.generateNewBagWithSeed (st.gameSeed + (st.bagNumber + 1))
          bagIndex := 1
          bagNumber := st.bagNumber + 1 } := by
    rw [drawStep_regen _ (by simp [hlen])]
  show GameService.drawStep (GameService.drawStep (GameService.drawStep (GameService.drawStep
    (GameService.drawStep (GameService.drawStep (GameService.drawStep st)))))) = _
  rw [e1, e2, e3, e4, e5, e6, e7]

/-- After `7 * k` draws from the state `initializePlayerGameState` builds,
the bag in use is `generateNewBagWithSeed s` for `k = 0` and
`generateNewBagWithSeed (s + (k + 1))` afterwards, with the bag number at
`k + 1`. -/
theorem drawStep_iterate_bags (s : Nat) : ∀ k : Nat,
    GameService.drawStep^[7 * k] (GameService.initPlayerGameState s) =
      { GameService.initPlayerGameState s with
          tetrominoBag :=
            GameService.generateNewBagWithSeed (if k = 0 then s else s + (k + 1))
          bagIndex := 1
          bagNumber := k + 1 } := by
  intro k
  induction k with
  | zero => rfl
  | succ k ih =>
    rw [show 7 * (k + 1) = 7 + 7 * k from by ring, Function.iterate_add_apply, ih]
    rw [drawStep_seven _ (by simp [generateNewBagWithSeed_length]) (by simp)]
    rw [if_neg (Nat.succ_ne_zero k)]
    by_cases hk : k = 0
    · subst hk; rfl
    · rw [if_neg hk]
      rfl

/-- C4 (amended): for every game seed `s`, the first bag a player consumes
is `shuffleBag(s)` — not `shuffleBag(s + 1)` — and for every `n ≥ 2` the
n-th bag is `shuffleBag(s + n)`. -/
theorem nthConsumedBag_seed (s n : Nat) (h : 1 ≤ n) :
    GameService.nthConsumedBag s n =
      GameService.generateNewBagWithSeed (if n = 1 then s else s + n) := by
  rw [GameService.nthConsumedBag, drawStep_iterate_bags s (n - 1)]
  by_cases h1 : n = 1
  · subst h1; rfl
  · show GameService.generateNewBagWithSeed (if n - 1 = 0 then s else s + (n - 1 + 1)) =
      GameService.generateNewBagWithSeed (if n = 1 then s else s + n)
    rw [if_neg (by omega), if_neg h1, show n - 1 + 1 = n from by omega]

/-- Witness for the amended C4 at seed 100, bag 2. -/
theorem nthConsumedBag_seed_witness :
    GameService.nthConsumedBag 100 2 =
      GameService.generateNewBagWithSeed (if 2 = 1 then 100 else 100 + 2) :=
  nthConsumedBag_seed 100 2 (by decide)

set_option maxRecDepth 8000 in
/-- Counterexample to C4 as stated: for game seed 100 the first bag the
player consumes is `shuffleBag(100)`, which differs from the claimed
`shuffleBag(100 + 1)`. -/
theorem nthConsumedBag_first_not_shifted :
    GameService.nthConsumedBag 100 1 ≠ GameService.generateNewBagWithSeed (100 + 1) := by
  decide

/-- C2 (amended): the tetris-core level function returns `floor(n / 10)`,
but the game service's own level function — the one the lock pipeline
stores — returns `floor(n / 10) + 1`, so after every blocked `moveDown`
(a lock) the stored level is `floor(linesCleared / 10) + 1`. -/
theorem level_after_lock (st : PlayerGameState) (cur : Tetromino)
    (hgo : st.gameOver = false) (hcur : st.currentPiece = some cur)
    (hblock : TetrisCoreService.moveTetromino cur st.board 0 1 = none) :
    (∀ n : Nat, TetrisCoreService.calculateLevel n = n / 10) ∧
    (∀ n : Nat, GameService.calculateLevel n = n / 10 + 1) ∧
    ∃ r, GameService.handlePlayerInputServerOnly st .moveDown = some r ∧
      r.level = r.linesCleared / 10 + 1 := by
  refine ⟨fun n => rfl, fun n => rfl, ?_⟩
  refine ⟨GameService.lockPipeline st cur, ?_, ?_⟩
  · simp [GameService.handlePlayerInputServerOnly, hgo, hcur, hblock]
  · rfl

/-- Witness for the amended C2 at the bottom-row lock state. -/
theorem level_after_lock_witness :
    (∀ n : Nat, TetrisCoreService.calculateLevel n = n / 10) ∧
    (∀ n : Nat, GameService.calculateLevel n = n / 10 + 1) ∧
    ∃ r, GameService.handlePlayerInputServerOnly lockState .moveDown = some r ∧
      r.level = r.linesCleared / 10 + 1 :=
  level_after_lock lockState restingIPiece rfl rfl (by decide)

/-- Counterexample to C2 as stated: the game service's level function maps
0 lines to level 1, not `floor(0 / 10) = 0`, and after the concrete lock the
stored level (1) differs from `floor(linesCleared / 10)` (0). -/
theorem gameServiceLevel_not_floor :
    GameService.calculateLevel 0 ≠ 0 / 10 ∧
    (GameService.handlePlayerInputServerOnly lockState .moveDown).map
        (fun r => decide (r.level = r.linesCleared / 10)) = some false := by
  exact ⟨by decide, by decide⟩

/-- C5: at a lock the code does not promote the displayed `nextPiece`: in
the `lockState` scenario (game started with seed 12345, first piece resting
on the bottom row) the pre-lock `nextPiece` is the J, yet the newly spawned
piece is the T drawn fresh from the bag (and the new `nextPiece` the L),
both on the `moveDown` lock path and on the gravity `autoDropPiece` path. -/
theorem lock_spawns_bag_draw_not_nextPiece :
    lockState.nextPiece = some TetrominoType.J ∧
    (GameService.handlePlayerInputServerOnly lockState .moveDown).map
        (fun r => (r.currentPiece.map Tetromino.type, r.nextPiece)) =
      some (some TetrominoType.T, some TetrominoType.L) ∧
    (GameService.autoDropPiece lockState).map
        (fun r => (r.currentPiece.map Tetromino.type, r.nextPiece)) =
      some (some TetrominoType.T, some TetrominoType.L) ∧
    TetrominoType.T ≠ TetrominoType.J := by
  refine ⟨rfl, by decide, by decide, by decide⟩

/-- C6: `canHold` does become `false` immediately after a hold, but no lock
path resets it: after a lock (`moveDown` on collision or `hardDrop`) in a
post-hold state it is still `false`. -/
theorem canHold_not_reset_on_lock :
    (GameService.handlePlayerInputServerOnly lockState .hold).map
        (fun r => r.canHold) = some false ∧
    heldLockState.canHold = false ∧
    (GameService.handlePlayerInputServerOnly heldLockState .moveDown).map
        (fun r => r.canHold) = some false ∧
    (GameService.handlePlayerInputServerOnly heldLockState .hardDrop).map
        (fun r => r.canHold) = some false := by
  refine ⟨by decide, rfl, by decide, by decide⟩

/-- A store holding a started state without a current piece makes
`getPlayerGameState` and `startPlayerGame` call each other below any fuel:
`startPlayerGame` reads the state back through `getPlayerGameState` before
its first write, and the trigger condition still holds. -/
theorem getPlayerGameStateF_startPlayerGameF_diverge (store : GsStore)
    (gs : PlayerGameState) (room : Room)
    (hc : store.cache = none) (hp : store.playerGame = some gs)
    (hr : store.room = some room)
    (hg : gs.gameStarted = true) (hcp : gs.currentPiece = none) :
    ∀ fuel : Nat, GameService.getPlayerGameStateF fuel store = none ∧
      GameService.startPlayerGameF fuel store = none := by
  intro fuel
  induction fuel with
  | zero => exact ⟨rfl, rfl⟩
  | succ n ih =>
    constructor
    · simp [GameService.getPlayerGameStateF, hc, hp, hg, hcp, ih.2]
    · simp [GameService.startPlayerGameF, hr, ih.1]

/-- C10: on the failing input — a stored `PlayerGameState` with
`gameStarted = true` and `currentPiece = null`, a cold cache and an existing
room — `getPlayerGameState` never returns, for any amount of fuel. -/
theorem getPlayerGameState_restart_diverges :
    ∀ fuel : Nat, GameService.getPlayerGameStateF fuel divergingStore = none := by
  intro fuel
  exact (getPlayerGameStateF_startPlayerGameF_diverge divergingStore restartTriggerState
    ⟨555⟩ rfl rfl rfl rfl rfl fuel).1

end Theorems
